import Mathlib

/-!
# Verification of the cyop caption pipeline against its specification

Shallow embedding of the core of the `markbang/cyop` repository:
the captions router (`packages/api/src/routers/captions.ts`, appearing in
the sources as an unnamed part), the media router
(`packages/api/src/routers/media.ts`), the batch caption worker
(`packages/api/src/services/captionWorker.ts`), the vision-caption client
(`packages/api/src/services/openai.ts`) and the storage signer
(`packages/api/src/services/storage.ts`).

Database tables are modelled as lists of row structures; timestamps are
`Nat`; SQL updates become maps over the row list; tRPC errors become an
explicit `Except`.  JavaScript's falsy test on a nullable string
(`null`/`undefined`/`""` are falsy) is modelled by `truthyStr`.
-/

namespace Cyop

/-- Review status of a caption row (the `captionStatusValues` enum). -/
inductive CaptionStatus where
  | pending
  | processing
  | completed
  | approved
  | rejected
deriving DecidableEq, Repr

/-- Render a `CaptionStatus` the way string interpolation of the enum value does. -/
def CaptionStatus.asString : CaptionStatus → String
  | .pending => "pending"
  | .processing => "processing"
  | .completed => "completed"
  | .approved => "approved"
  | .rejected => "rejected"

/-- One row of the `captions` table, restricted to the columns the captions
router and the batch worker read or write. -/
structure Caption where
  id : Nat
  mediaAssetId : Nat
  promptTemplateId : Option Nat := none
  aiCaption : Option String := none
  manualCaption : Option String := none
  finalCaption : Option String := none
  status : CaptionStatus := .pending
  model : Option String := none
  confidence : Option Nat := none
  tokensUsed : Option Nat := none
  rejectionReason : Option String := none
  approvedBy : Option String := none
  generatedAt : Option Nat := none
  approvedAt : Option Nat := none
  createdAt : Nat := 0
  updatedAt : Nat := 0
deriving DecidableEq, Repr

/-- One row of the `promptTemplates` table (the columns the routers use). -/
structure PromptTemplate where
  id : Nat
  isDefault : Bool := false
  isActive : Bool := true
deriving DecidableEq, Repr

/-- TS `a || b` for a nullable string `a`: `b` unless `a` is present and
non-empty (both `null` and `""` are falsy). -/
def orFalsy (a : Option String) (b : String) : String :=
  match a with
  | some s => if s = "" then b else s
  | none => b

/-- JS truthiness of a nullable string: present and non-empty. -/
def truthyStr : Option String → Bool
  | some s => s != ""
  | none => false

/-- A tRPC error as thrown by the routers. -/
inductive ApiError where
  | notFound (message : String)
deriving DecidableEq, Repr

end Cyop

namespace Cyop

/-! ## Captions router: approve / reject, single and batch -/

/-- The `set` object of `captionsRouter.approve` applied to one row:
`approvedBy` is `input.approvedBy ?? ctx.session.user.email ?? "unknown"`. -/
def approveRow (now : Nat) (approvedBy : Option String) (sessionEmail : Option String)
    (c : Caption) : Caption :=
  { c with
    status := .approved
    approvedAt := some now
    approvedBy := some (approvedBy.getD (sessionEmail.getD "unknown"))
    updatedAt := now }

/-- The `set` object of `captionsRouter.reject` applied to one row. -/
def rejectRow (now : Nat) (reason : Option String) (c : Caption) : Caption :=
  { c with
    status := .rejected
    rejectionReason := reason
    updatedAt := now }

/-- `captionsRouter.approve`: update the row with the given id; if no row was
updated (`returning()` came back empty) throw NOT_FOUND. -/
def captionsApprove (db : List Caption) (id : Nat) (approvedBy : Option String)
    (sessionEmail : Option String) (now : Nat) :
    Except ApiError (List Caption × Caption) :=
  let db' := db.map fun c => if c.id = id then approveRow now approvedBy sessionEmail c else c
  match db'.find? (fun c => c.id = id) with
  | some c => .ok (db', c)
  | none => .error (.notFound "Caption not found")

/-- `captionsRouter.reject`: update the row with the given id; NOT_FOUND when
no row matched. -/
def captionsReject (db : List Caption) (id : Nat) (reason : Option String)
    (now : Nat) : Except ApiError (List Caption × Caption) :=
  let db' := db.map fun c => if c.id = id then rejectRow now reason c else c
  match db'.find? (fun c => c.id = id) with
  | some c => .ok (db', c)
  | none => .error (.notFound "Caption not found")

/-- `captionsRouter.batchApprove`: one `update ... where id in ids` returning the
updated ids; the result is `\x7bapproved: n\x7d` where `n` counts updated rows.
There is no not-found path. -/
def captionsBatchApprove (db : List Caption) (ids : List Nat) (approvedBy : Option String)
    (sessionEmail : Option String) (now : Nat) :
    Except ApiError (List Caption × Nat) :=
  let db' := db.map fun c => if ids.contains c.id then approveRow now approvedBy sessionEmail c else c
  .ok (db', (db.filter (fun c => ids.contains c.id)).length)

/-- `captionsRouter.batchReject`: one `update ... where id in ids`; the result is
`\x7brejected: n\x7d` counting updated rows.  There is no not-found path. -/
def captionsBatchReject (db : List Caption) (ids : List Nat) (reason : Option String)
    (now : Nat) : Except ApiError (List Caption × Nat) :=
  let db' := db.map fun c => if ids.contains c.id then rejectRow now reason c else c
  .ok (db', (db.filter (fun c => ids.contains c.id)).length)

end Cyop

namespace Cyop

/-! ## Captions router: export -/

/-- The row shape selected by `captionsRouter.export`
(`captions` inner-joined to `mediaAssets`). -/
structure ExportRow where
  id : Nat
  originalName : String
  aiCaption : Option String := none
  manualCaption : Option String := none
  finalCaption : Option String := none
  status : CaptionStatus := .pending
  model : Option String := none
  confidence : Option Nat := none
deriving DecidableEq, Repr

/-- The caption text `r.finalCaption || r.manualCaption || r.aiCaption || ""`
computed (identically) in the CSV branch and in the TXT branch of
`captionsRouter.export`. -/
def exportCaptionText (r : ExportRow) : String :=
  orFalsy r.finalCaption (orFalsy r.manualCaption (orFalsy r.aiCaption ""))

/-- `replace(/"/g, s)` doubling each double quote (RFC 4180 escaping). -/
def csvEscape (s : String) : String :=
  String.mk (s.data.flatMap fun c => if c = '"' then ['"', '"'] else [c])

/-- `${r.confidence || ""}`: null and 0 both render as the empty string. -/
def confidenceCell (confidence : Option Nat) : String :=
  match confidence with
  | some n => if n = 0 then "" else Nat.repr n
  | none => ""

/-- One CSV line of `captionsRouter.export` with `format = "csv"`. -/
def csvLine (r : ExportRow) : String :=
  "\"" ++ r.originalName ++ "\",\"" ++ csvEscape (exportCaptionText r) ++ "\",\"" ++
    r.status.asString ++ "\",\"" ++ orFalsy r.model "" ++ "\",\"" ++
    confidenceCell r.confidence ++ "\""

/-- The full CSV payload: header line then one line per row, newline-joined. -/
def csvData (rows : List ExportRow) : String :=
  String.intercalate "\n" ("filename,caption,status,model,confidence" :: rows.map csvLine)

/-- `replace(/\.[^.]+$/, "")`: strip a final dot-extension (a dot followed by
one or more non-dots at the end of the name). -/
def stripExt (name : String) : String :=
  let rev := name.data.reverse
  let ext := rev.takeWhile (fun c => c ≠ '.')
  let rest := rev.drop ext.length
  match rest with
  | '.' :: rest' => if ext.isEmpty then name else String.mk rest'.reverse
  | _ => name

/-- One TXT export file of `captionsRouter.export` with `format = "txt"`:
`(filename, content)`. -/
def txtFile (r : ExportRow) : String × String :=
  let baseName := stripExt r.originalName
  let baseName := if baseName = "" then "caption_" ++ Nat.repr r.id else baseName
  (baseName ++ ".txt", exportCaptionText r)

/-- The selection rule as worded by the specification:
`finalCaption ?? manualCaption ?? aiCaption ?? ""` — nullish coalescing, so a
present-but-empty string would still be selected.  Stated only to be compared
with `exportCaptionText`, which is what the code computes. -/
def specNullishCaptionText (r : ExportRow) : String :=
  r.finalCaption.getD (r.manualCaption.getD (r.aiCaption.getD ""))

end Cyop

namespace Cyop

/-! ## Captions router: triggerCaptioning and regenerate -/

/-- One row of the `mediaAssets` table (the columns the routers use). -/
structure MediaAssetRow where
  id : Nat
  datasetId : Nat
  requirementId : Nat := 0
  originalName : String := ""
  mimeType : String := ""
  size : Nat := 0
  storageBucket : String := ""
  storageKey : String := ""
  publicUrl : Option String := none
  width : Option Nat := none
  height : Option Nat := none
  checksum : Option String := none
  uploadedAt : Option Nat := none
  createdAt : Nat := 0
  updatedAt : Nat := 0
deriving DecidableEq, Repr

/-- The relational state the captions router operates on.  `nextCaptionId`
models the id sequence backing `captions.id`. -/
structure Db where
  mediaAssets : List MediaAssetRow := []
  captions : List Caption := []
  promptTemplates : List PromptTemplate := []
  nextCaptionId : Nat := 1
deriving Repr

/-- The `where` predicate of the asset selection in
`captionsRouter.triggerCaptioning`: asset in the dataset, optionally filtered
to explicit ids (the condition is only added when the list is non-empty), and
— via the left join plus `isNull(captions.id)` — with no caption row at all. -/
def triggerSelectable (st : Db) (datasetId : Nat) (mediaAssetIds : Option (List Nat))
    (a : MediaAssetRow) : Bool :=
  a.datasetId = datasetId &&
    (match mediaAssetIds with
     | some l => if l.isEmpty then true else l.contains a.id
     | none => true) &&
    st.captions.all (fun c => c.mediaAssetId != a.id)

/-- Resolve the template id the way `triggerCaptioning` and `regenerate` do:
the explicit input id, otherwise the first template flagged `isDefault`. -/
def resolveTemplateId (st : Db) (promptTemplateId : Option Nat) : Option Nat :=
  match promptTemplateId with
  | some t => some t
  | none => (st.promptTemplates.find? (fun t => t.isDefault)).map (fun t => t.id)

/-- Response of `captionsRouter.triggerCaptioning`. -/
structure TriggerResult where
  queued : Nat
  captionIds : List Nat := []
deriving DecidableEq, Repr

/-- The `captionRecords` array built by `triggerCaptioning`: one `processing`
row per selected asset, with ids drawn serially from the id sequence. -/
def insertRecords (nextId : Nat) (templateId : Option Nat) (now : Nat) :
    List MediaAssetRow → List Caption
  | [] => []
  | a :: rest =>
    { id := nextId
      mediaAssetId := a.id
      promptTemplateId := templateId
      status := .processing
      createdAt := now
      updatedAt := now : Caption } :: insertRecords (nextId + 1) templateId now rest

/-- `captionsRouter.triggerCaptioning`: select the dataset's caption-less
assets (anti-join), insert one `processing` caption row per selected asset
bound to the resolved template, and return the inserted ids.  The early
return fires when the selection is empty. -/
def triggerCaptioning (st : Db) (datasetId : Nat) (promptTemplateId : Option Nat)
    (mediaAssetIds : Option (List Nat)) (now : Nat) : Db × TriggerResult :=
  let assets := st.mediaAssets.filter (triggerSelectable st datasetId mediaAssetIds)
  if assets.isEmpty then
    (st, { queued := 0 })
  else
    let templateId := resolveTemplateId st promptTemplateId
    let records := insertRecords st.nextCaptionId templateId now assets
    ({ st with
        captions := st.captions ++ records
        nextCaptionId := st.nextCaptionId + records.length },
     { queued := records.length, captionIds := records.map (fun c => c.id) })

/-- `captionsRouter.regenerate`: resolve the template id, then one
`update ... where id in ids` that moves each row to `processing`, clears
`aiCaption`/`confidence`/`tokensUsed`/`generatedAt`, and reassigns
`promptTemplateId`.  When neither an explicit id nor a default template
exists, `templateId` is `undefined` and drizzle leaves the column untouched. -/
def regenerateRows (st : Db) (ids : List Nat) (promptTemplateId : Option Nat)
    (now : Nat) : Db × Nat :=
  let templateId := resolveTemplateId st promptTemplateId
  let upd := fun (c : Caption) =>
    if ids.contains c.id then
      { c with
        status := .processing
        promptTemplateId := match templateId with
          | some t => some t
          | none => c.promptTemplateId
        aiCaption := none
        confidence := none
        tokensUsed := none
        generatedAt := none
        updatedAt := now }
    else c
  ({ st with captions := st.captions.map upd }, ids.length)

end Cyop

namespace Cyop

/-! ## Vision-caption client (`services/openai.ts`) -/

/-- Successful return value of `generateCaption`. -/
structure CaptionResult where
  caption : String
  model : String
  tokensUsed : Nat
  confidence : Nat
deriving DecidableEq, Repr

/-- `message` object inside a chat-completion choice. -/
structure ChatMessage where
  content : String
deriving DecidableEq, Repr

/-- One element of `data.choices`. -/
structure ChatChoice where
  message : ChatMessage
  finish_reason : String
deriving DecidableEq, Repr

/-- The JSON body `generateCaption` reads from a successful response:
`choices`, `usage.total_tokens` (optional-chained in the source), `model`. -/
structure ChatResponseBody where
  choices : List ChatChoice
  usage : Option Nat := none
  model : String := ""
deriving DecidableEq, Repr

/-- Outcome of the one `fetch` call `generateCaption` makes: `ok`/`status`,
the body text (read on the error path) and the parsed JSON body (read on the
success path). -/
structure HttpResponse where
  ok : Bool
  status : Nat := 200
  bodyText : String := ""
  body : ChatResponseBody := { choices := [] }
deriving DecidableEq, Repr

/-- `data.choices[0]?.message?.content` as a nullable string. -/
def responseContent (resp : HttpResponse) : Option String :=
  (resp.body.choices.head?).map (fun ch => ch.message.content)

/-- `generateCaption` of `services/openai.ts`, with the environment's API key
and the network outcome as explicit inputs.  The first component records
whether the `fetch` call was reached: `getApiKey` throws before any request
when `OPENAI_API_KEY` is absent or empty (falsy).  Error strings are the
thrown `Error` messages. -/
def generateCaptionModel (apiKey : Option String) (resp : HttpResponse) :
    Bool × Except String CaptionResult :=
  if truthyStr apiKey = false then
    (false, .error "OPENAI_API_KEY is not configured")
  else if resp.ok = false then
    (true, .error ("OpenAI API error: " ++ Nat.repr resp.status ++ " - " ++ resp.bodyText))
  else
    match responseContent resp with
    | none => (true, .error "OpenAI returned empty response")
    | some content =>
      if content = "" then
        (true, .error "OpenAI returned empty response")
      else
        (true, .ok
          { caption := content.trim
            model := resp.body.model
            tokensUsed := resp.body.usage.getD 0
            confidence :=
              if (resp.body.choices.head?).map (fun ch => ch.finish_reason) = some "stop"
              then 90 else 70 })

/-! ## Batch worker pool (`generateCaptionsBatch` of `services/openai.ts`) -/

/-- One element of the `jobs` array handed to `generateCaptionsBatch`. -/
structure BatchCaptionJob where
  captionId : Nat
  imageUrl : String := ""
  systemPrompt : String := ""
  userPrompt : String := ""
  model : Option String := none
  maxTokens : Option Nat := none
  temperature : Option Nat := none
deriving DecidableEq, Repr

/-- One element of the `results` array produced by `generateCaptionsBatch`. -/
structure BatchCaptionResult where
  captionId : Nat
  success : Bool
  caption : Option String := none
  model : Option String := none
  tokensUsed : Option Nat := none
  confidence : Option Nat := none
  error : Option String := none
deriving DecidableEq, Repr

/-- The result a worker pushes for one dequeued job: the `try` branch on a
successful `generateCaption`, the `catch` branch on a thrown error.  `exec`
abstracts one `generateCaption` call; its error string is the thrown error's
message (a non-`Error` throw is absorbed as the literal "Unknown error"
string the catch arm substitutes). -/
def resultOf (exec : BatchCaptionJob → Except String CaptionResult)
    (j : BatchCaptionJob) : BatchCaptionResult :=
  match exec j with
  | .ok res =>
    { captionId := j.captionId
      success := true
      caption := some res.caption
      model := some res.model
      tokensUsed := some res.tokensUsed
      confidence := some res.confidence }
  | .error e =>
    { captionId := j.captionId
      success := false
      error := some e }

/-- Interleaving state of the worker pool: the shared FIFO `queue` the
workers `shift()` from, the multiset of jobs currently in flight (each of
the `concurrency` workers holds at most one), and the shared `results`
array the workers `push()` onto. -/
structure PoolState where
  queue : List BatchCaptionJob
  inFlight : Multiset BatchCaptionJob
  results : List BatchCaptionResult
deriving DecidableEq

/-- Atomic transitions of the worker pool.  JavaScript's single-threaded
event loop makes the `length` check plus `shift()` one atomic step (`pop`,
possible only while a worker is free), and the `results.push` after the
awaited call another (`finish`).  Workers interleave arbitrarily between the
two, so completion order is unconstrained. -/
inductive PoolStep (concurrency : Nat) (exec : BatchCaptionJob → Except String CaptionResult) :
    PoolState → PoolState → Prop where
  | pop (j : BatchCaptionJob) (q : List BatchCaptionJob) (inF : Multiset BatchCaptionJob)
      (res : List BatchCaptionResult) (hfree : Multiset.card inF < concurrency) :
      PoolStep concurrency exec ⟨j :: q, inF, res⟩ ⟨q, j ::ₘ inF, res⟩
  | finish (j : BatchCaptionJob) (q : List BatchCaptionJob) (inF : Multiset BatchCaptionJob)
      (res : List BatchCaptionResult) (hin : j ∈ inF) :
      PoolStep concurrency exec ⟨q, inF, res⟩
        ⟨q, inF.erase j, res ++ [resultOf exec j]⟩

/-- Reflexive-transitive closure of `PoolStep`: the schedules the event loop
can produce. -/
inductive PoolReach (concurrency : Nat) (exec : BatchCaptionJob → Except String CaptionResult) :
    PoolState → PoolState → Prop where
  | refl (s : PoolState) : PoolReach concurrency exec s s
  | tail {s t u : PoolState} : PoolReach concurrency exec s t →
      PoolStep concurrency exec t u → PoolReach concurrency exec s u

/-- State at entry of `generateCaptionsBatch`: the copied queue, no job in
flight, empty results. -/
def initPool (jobs : List BatchCaptionJob) : PoolState :=
  ⟨jobs, 0, []⟩

/-- `Promise.all(workers)` has resolved: the queue is drained and no worker
still holds a job. -/
def PoolDone (s : PoolState) : Prop :=
  s.queue = [] ∧ s.inFlight = 0

end Cyop

namespace Cyop

/-! ## Batch caption worker (`services/captionWorker.ts`) -/

/-- The per-result `update captions set ...` of `processPendingCaptions`
applied to one row: the success branch requires `result.success` and a truthy
(non-empty) `result.caption`; every other result hits the failure branch.
Drizzle skips `undefined` values in `set`, hence the `orElse` fallbacks on
the nullable result columns. -/
def applyResult (now : Nat) (r : BatchCaptionResult) (c : Caption) : Caption :=
  if c.id = r.captionId then
    if r.success && truthyStr r.caption then
      { c with
        aiCaption := r.caption
        finalCaption := r.caption
        status := .completed
        model := r.model.orElse (fun _ => c.model)
        confidence := r.confidence.orElse (fun _ => c.confidence)
        tokensUsed := r.tokensUsed.orElse (fun _ => c.tokensUsed)
        generatedAt := some now
        updatedAt := now }
    else
      { c with
        status := .rejected
        rejectionReason := some (orFalsy r.error "Caption generation failed")
        updatedAt := now }
  else c

/-- The `for (const result of results)` persistence loop of
`processPendingCaptions`: each result updates the caption row keyed by its
`captionId`. -/
def persistResults (now : Nat) (db : List Caption) :
    List BatchCaptionResult → List Caption
  | [] => db
  | r :: rs => persistResults now (db.map (applyResult now r)) rs

/-- The aggregate tally `processPendingCaptions` returns:
`processed`/`succeeded`/`failed` counts plus `(captionId, error)` pairs, the
error defaulting to "Unknown error" in the errors list. -/
structure ProcessTally where
  processed : Nat
  succeeded : Nat
  failed : Nat
  errors : List (Nat × String)
deriving DecidableEq, Repr

/-- Tally of the persistence loop over a result list. -/
def tallyResults (results : List BatchCaptionResult) : ProcessTally :=
  { processed := results.length
    succeeded := (results.filter (fun r => r.success && truthyStr r.caption)).length
    failed := (results.filter (fun r => !(r.success && truthyStr r.caption))).length
    errors := (results.filter (fun r => !(r.success && truthyStr r.caption))).map
      (fun r => (r.captionId, orFalsy r.error "Unknown error")) }

end Cyop

namespace Cyop.Storage

/-! ## Object storage signer (`services/storage.ts`) -/

/-- The lazily-cached storage configuration, taken here as an explicit input
(in the source it is read once from the environment). -/
structure StorageConfig where
  accessKeyId : String
  secretAccessKey : String
  bucket : String
  region : String
  endpoint : String
  forcePathStyle : Bool := false
deriving DecidableEq, Repr

/-- Fuel-driven decimal printer (the fuel only bounds the recursion depth;
`decChars` always passes enough). -/
def decCharsAux : Nat → Nat → List Char
  | 0, n => [Char.ofNat (48 + n % 10)]
  | fuel + 1, n =>
    if n < 10 then [Char.ofNat (48 + n)]
    else decCharsAux fuel (n / 10) ++ [Char.ofNat (48 + n % 10)]

/-- Decimal digits of a natural number, most significant first — the text a
template literal interpolates for a non-negative integer. -/
def decChars (n : Nat) : List Char :=
  decCharsAux n n

/-- `toLowerCase()` on one character.  `Char.toLower` covers the ASCII
mappings; exotic Unicode mappings are immaterial for `buildStorageKey`
because every character that is not already in `[a-z0-9.-]` afterwards is
collapsed to a dash. -/
def lowerChar (c : Char) : Char := c.toLower

/-- Characters the storage-key normalization keeps: `[a-z0-9.-]`. -/
def isKeyChar (c : Char) : Bool :=
  ('a' ≤ c && c ≤ 'z') || ('0' ≤ c && c ≤ '9') || c = '.' || c = '-'

/-- Worker for `collapseRuns`: `inRun` records whether the previous character
was part of a run of characters outside the safe set (whose dash was already emitted). -/
def collapseAux (inRun : Bool) : List Char → List Char
  | [] => []
  | c :: rest =>
    if isKeyChar c then c :: collapseAux false rest
    else if inRun then collapseAux true rest
    else '-' :: collapseAux true rest

/-- `replace(/[^a-z0-9.-]+/g, "-")`: each maximal run of characters outside
the safe set becomes a single dash. -/
def collapseRuns (l : List Char) : List Char := collapseAux false l

/-- `replace(/^-+|-+$/g, "")`: drop the leading and the trailing run of
dashes. -/
def trimDashes (l : List Char) : List Char :=
  ((l.dropWhile (fun c => c = '-')).reverse.dropWhile (fun c => c = '-')).reverse

/-- The normalized filename component of `buildStorageKey`: lowercase,
collapse runs outside the safe set to dashes, trim dashes, `slice(0, 120)`. -/
def normalizeName (originalName : String) : List Char :=
  (trimDashes (collapseRuns (originalName.data.map lowerChar))).take 120

/-- `buildStorageKey(datasetId, originalName)` with the `Date.now()`
millisecond timestamp as an explicit input:
`datasets/${datasetId}/${timestamp}-${normalizedName || "asset"}`. -/
def buildStorageKey (datasetId : Nat) (originalName : String) (timestampMs : Nat) : String :=
  let nn := normalizeName originalName
  String.mk ("datasets/".data ++ decChars datasetId ++ '/' ::
    (decChars timestampMs ++ '-' :: (if nn.isEmpty then "asset".data else nn)))

/-- Hex digit in upper case, as `toString(16).toUpperCase()` renders it. -/
def hexDigitUpper (n : Nat) : Char :=
  if n < 10 then Char.ofNat (48 + n) else Char.ofNat (55 + n)

/-- `%XX` percent-encoding of one byte. -/
def pctByte (b : Nat) : List Char :=
  ['%', hexDigitUpper (b / 16), hexDigitUpper (b % 16)]

/-- UTF-8 bytes of one character (what `encodeURIComponent` escapes). -/
def utf8Bytes (c : Char) : List Nat :=
  let n := c.toNat
  if n < 128 then [n]
  else if n < 2048 then [192 + n / 64, 128 + n % 64]
  else if n < 65536 then [224 + n / 4096, 128 + (n / 64) % 64, 128 + n % 64]
  else [240 + n / 262144, 128 + (n / 4096) % 64, 128 + (n / 64) % 64, 128 + n % 64]

/-- The characters `encodeURIComponent` leaves unescaped:
alphanumerics and `- _ . ! ~ * ' ( )`. -/
def uriUnreserved (c : Char) : Bool :=
  ('A' ≤ c && c ≤ 'Z') || ('a' ≤ c && c ≤ 'z') || ('0' ≤ c && c ≤ '9') ||
    c = '-' || c = '_' || c = '.' || c = '!' || c = '~' || c = '*' ||
    c = Char.ofNat 39 || c = '(' || c = ')'

/-- `encodeURIComponent(value)`: percent-encode the UTF-8 bytes of every
character outside the unreserved set. -/
def encodeURIComponentModel (s : String) : String :=
  String.mk (s.data.flatMap fun c =>
    if uriUnreserved c then [c] else (utf8Bytes c).flatMap pctByte)

/-- The extra `replace(/[!'()*]/g, ...)` pass of `encodeRfc3986`, mapping the
five characters S3 additionally escapes to their upper-case `%XX` form. -/
def rfc3986Extra (c : Char) : List Char :=
  if c = '!' || c = Char.ofNat 39 || c = '(' || c = ')' || c = '*' then
    pctByte c.toNat
  else [c]

/-- `encodeRfc3986(value)`: `encodeURIComponent` followed by escaping
`! ' ( ) *`. -/
def encodeRfc3986 (s : String) : String :=
  String.mk ((encodeURIComponentModel s).data.flatMap rfc3986Extra)

/-- `encodeKey(key)`: encode each slash-separated segment, keeping the
slashes. -/
def encodeKey (key : String) : String :=
  String.intercalate "/" ((key.splitOn "/").map encodeRfc3986)

/-- `toAmzDate(date)`: the ISO string with every `:`/`-` and each `.ddd`
millisecond group removed (the `/[:-]|\.\d{3}/g` replace). -/
def toAmzDate : List Char → List Char
  | [] => []
  | '.' :: a :: b :: c :: rest =>
    if a.isDigit && b.isDigit && c.isDigit then toAmzDate rest
    else '.' :: toAmzDate (a :: b :: c :: rest)
  | c :: rest =>
    if c = ':' || c = '-' then toAmzDate rest else c :: toAmzDate rest
termination_by l => l.length
decreasing_by all_goals simp only [List.length_cons]; omega

/-- `toDateStamp(date)`: the first ten ISO characters with the dashes
removed. -/
def toDateStamp (iso : String) : List Char :=
  (iso.data.take 10).filter (fun c => c ≠ '-')

/-- The cryptographic primitives of `node:crypto` used by the signer, taken
abstract: `B` is the type of binary digests, `hmac` is
`createHmac("sha256", key).update(value).digest()`, `keyOfString` the UTF-8
interpretation of a string key, `hexDigest` a hex rendering of a digest, and
`sha256Hex` is `createHash("sha256").update(value).digest("hex")`. -/
structure CryptoPrims (B : Type) where
  hmac : B → String → B
  keyOfString : String → B
  hexDigest : B → String
  sha256Hex : String → String

/-- `getSignatureKey(secret, dateStamp, region)`: the four-stage HMAC key
derivation `HMAC(HMAC(HMAC(HMAC("AWS4"+secret, date), region), "s3"),
"aws4_request")`. -/
def getSignatureKey {B : Type} (p : CryptoPrims B) (secret dateStamp region : String) : B :=
  let kDate := p.hmac (p.keyOfString ("AWS4" ++ secret)) dateStamp
  let kRegion := p.hmac kDate region
  let kService := p.hmac kRegion "s3"
  p.hmac kService "aws4_request"

/-- `signHex(key, value)`: HMAC-SHA256 with a hex digest. -/
def signHex {B : Type} (p : CryptoPrims B) (key : B) (value : String) : String :=
  p.hexDigest (p.hmac key value)

/-- `new URL(endpoint).host` for a well-formed `http(s)://host[/path]`
endpoint: the text between the scheme and the first slash. -/
def urlHost (endpoint : String) : String :=
  let rest :=
    if endpoint.startsWith "https://" then endpoint.drop 8
    else if endpoint.startsWith "http://" then endpoint.drop 7
    else endpoint
  rest.takeWhile (fun c => c ≠ '/')

/-- Insertion sort by the default JS `Array.sort()` comparator on strings
(code-unit order; our query strings are ASCII, where Lean's `≤` on `String`
agrees with it). -/
def insertSorted (x : String) : List String → List String
  | [] => [x]
  | y :: ys => if decide (x ≤ y) then x :: y :: ys else y :: insertSorted x ys

/-- `Array.prototype.sort()` on a list of strings. -/
def sortStrings : List String → List String
  | [] => []
  | x :: xs => insertSorted x (sortStrings xs)

/-- Everything `createPresignedUploadUrl` computes: the canonical request,
the string to sign, the signature and the presigned URL, plus the headers
returned to the caller. -/
structure PresignOut where
  canonicalRequest : String
  stringToSign : String
  signature : String
  url : String
  headers : List (String × String)
deriving DecidableEq, Repr

/-- `createPresignedUploadUrl({key, contentType, expiresIn})` of
`services/storage.ts`, with the configuration, the clock (`new Date()`, as
its ISO string) and the crypto primitives as explicit inputs.  It signs a
PUT with `content-type;host` headers and the `UNSIGNED-PAYLOAD` sentinel,
sorts the encoded query parameters, derives the signing key per
date/region/service, and appends the signature as a query parameter. -/
def createPresignedUploadUrl {B : Type} (p : CryptoPrims B) (config : StorageConfig)
    (key contentType : String) (expiresIn : Nat) (nowIso : String) : PresignOut :=
  let amzDate := String.mk (toAmzDate nowIso.data)
  let dateStamp := String.mk (toDateStamp nowIso)
  let credentialScope := dateStamp ++ "/" ++ config.region ++ "/s3/aws4_request"
  let canonicalUri := "/" ++ config.bucket ++ "/" ++ encodeKey key
  let host := urlHost config.endpoint
  let signedHeaders := "content-type;host"
  let canonicalHeaders := "content-type:" ++ contentType ++ "\nhost:" ++ host ++ "\n"
  let payloadHash := "UNSIGNED-PAYLOAD"
  let credential := config.accessKeyId ++ "/" ++ credentialScope
  let queryParams : List (String × String) :=
    [("X-Amz-Algorithm", "AWS4-HMAC-SHA256"),
     ("X-Amz-Credential", credential),
     ("X-Amz-Date", amzDate),
     ("X-Amz-Expires", String.mk (decChars expiresIn)),
     ("X-Amz-SignedHeaders", signedHeaders)]
  let canonicalQuerystring :=
    String.intercalate "&"
      (sortStrings (queryParams.map (fun q => encodeRfc3986 q.1 ++ "=" ++ encodeRfc3986 q.2)))
  let canonicalRequest :=
    String.intercalate "\n"
      ["PUT", canonicalUri, canonicalQuerystring, canonicalHeaders, signedHeaders, payloadHash]
  let stringToSign :=
    String.intercalate "\n"
      ["AWS4-HMAC-SHA256", amzDate, credentialScope, p.sha256Hex canonicalRequest]
  let signingKey := getSignatureKey p config.secretAccessKey dateStamp config.region
  let signature := signHex p signingKey stringToSign
  let baseUrl := config.endpoint ++ "/" ++ config.bucket ++ "/" ++ encodeKey key
  { canonicalRequest := canonicalRequest
    stringToSign := stringToSign
    signature := signature
    url := baseUrl ++ "?" ++ canonicalQuerystring ++ "&X-Amz-Signature=" ++ signature
    headers := [("Content-Type", contentType)] }

end Cyop.Storage

namespace Cyop

/-! ## Media router (`routers/media.ts`) -/

/-- Media asset status (`mediaStatusValues`).
Modelled from the spec: the database schema package
(`@cyop/db/schema/platform`) is not among the sources; section 3 of the
specification gives the status lifecycle values
`pending_upload`, `uploaded`, `failed`. -/
inductive MediaStatus where
  | pending_upload
  | uploaded
  | failed
deriving DecidableEq, Repr

/-- The zod default of `finalizeUpload`'s `status` input:
`z.enum(mediaStatusValues).default("uploaded")`. -/
def defaultFinalizeStatus : MediaStatus := .uploaded

/-- One row of the `mediaAssets` table as the media router mutates it. -/
structure MediaAsset where
  id : Nat
  datasetId : Nat
  requirementId : Nat
  originalName : String := ""
  mimeType : String := ""
  size : Nat := 0
  storageBucket : String := ""
  storageKey : String := ""
  publicUrl : String := ""
  status : MediaStatus := .pending_upload
  width : Option Nat := none
  height : Option Nat := none
  checksum : Option String := none
  uploadedAt : Option Nat := none
  createdAt : Nat := 0
  updatedAt : Nat := 0
deriving DecidableEq, Repr

/-- One row of the `datasets` table (the columns `requestUpload` reads). -/
structure DatasetRow where
  id : Nat
  requirementId : Nat
deriving DecidableEq, Repr

/-- `buildPublicUrl(key)` of `services/storage.ts`: the configured public
base (trailing slash already stripped) concatenated with the key, otherwise
`${endpoint}/${bucket}/${key}`. -/
def buildPublicUrl (assetPublicUrl : Option String) (config : Storage.StorageConfig)
    (key : String) : String :=
  match assetPublicUrl with
  | some base => if base = "" then config.endpoint ++ "/" ++ config.bucket ++ "/" ++ key
      else base ++ "/" ++ key
  | none => config.endpoint ++ "/" ++ config.bucket ++ "/" ++ key

/-- `mediaRouter.requestUpload`: resolve the dataset (NOT_FOUND when absent),
default the content type, build the storage key from the dataset id, the
file name and the `Date.now()` millisecond clock, and insert the asset row
in `pending_upload`.  The presigned PUT this endpoint also returns is
modelled by `Storage.createPresignedUploadUrl`; here we model the row
mutation and the created asset. -/
def mediaRequestUpload (datasets : List DatasetRow) (st : List MediaAsset) (nextId : Nat)
    (datasetId : Nat) (fileName : String) (mimeType : Option String) (size : Nat)
    (assetPublicUrl : Option String) (config : Storage.StorageConfig)
    (nowMs now : Nat) : Except ApiError (List MediaAsset × MediaAsset) :=
  match datasets.find? (fun d => d.id = datasetId) with
  | none => .error (.notFound "Dataset not found")
  | some datasetRow =>
    let contentType :=
      match mimeType with
      | some m => if m = "" then "application/octet-stream" else m
      | none => "application/octet-stream"
    let storageKey := Storage.buildStorageKey datasetId fileName nowMs
    let asset : MediaAsset :=
      { id := nextId
        datasetId := datasetId
        requirementId := datasetRow.requirementId
        originalName := fileName
        mimeType := contentType
        size := size
        storageBucket := config.bucket
        storageKey := storageKey
        publicUrl := buildPublicUrl assetPublicUrl config storageKey
        status := .pending_upload
        createdAt := now
        updatedAt := now }
    .ok (st ++ [asset], asset)

/-- The optional fields of `finalizeUpload`'s input; omitted fields are left
untouched on the row (the handler only copies fields that are not
`undefined`). -/
structure FinalizeInput where
  assetId : Nat
  size : Option Nat := none
  width : Option Nat := none
  height : Option Nat := none
  checksum : Option String := none
  status : MediaStatus := defaultFinalizeStatus
deriving DecidableEq, Repr

/-- The `updates` object of `finalizeUpload` applied to one row: always
stamps `status`, `uploadedAt` and `updatedAt`; patches only the provided
optional fields. -/
def finalizePatch (input : FinalizeInput) (now : Nat) (a : MediaAsset) : MediaAsset :=
  { a with
    status := input.status
    uploadedAt := some now
    updatedAt := now
    size := input.size.getD a.size
    width := match input.width with | some w => some w | none => a.width
    height := match input.height with | some h => some h | none => a.height
    checksum := match input.checksum with | some c => some c | none => a.checksum }

/-- `mediaRouter.finalizeUpload`: update the row keyed by `assetId` with the
patch; NOT_FOUND when no row matched. -/
def mediaFinalizeUpload (st : List MediaAsset) (input : FinalizeInput) (now : Nat) :
    Except ApiError (List MediaAsset × MediaAsset) :=
  let st' := st.map fun a => if a.id = input.assetId then finalizePatch input now a else a
  match st'.find? (fun a => a.id = input.assetId) with
  | some a => .ok (st', a)
  | none => .error (.notFound "Asset not found")

end Cyop

namespace Cyop

/-! ## Concrete instances used by witnesses and counterexamples -/

/-- A stale rejected caption row used to witness the regenerate reset. -/
def staleRow : Caption :=
  { id := 4, mediaAssetId := 2, aiCaption := some "old", status := .rejected,
    confidence := some 70, tokensUsed := some 42, generatedAt := some 10 }

/-- A database holding `staleRow` and one default prompt template. -/
def staleDb : Db :=
  { captions := [staleRow], promptTemplates := [{ id := 9, isDefault := true }] }

/-- One batch job for caption row 1. -/
def jobOne : BatchCaptionJob := { captionId := 1 }

/-- The caption row the batch job targets, in `processing`. -/
def rowOne : Caption := { id := 1, mediaAssetId := 1, status := .processing }

/-- A `generateCaption` outcome that succeeds with a whitespace-only content,
i.e. a caption that trims to the empty string (reachable: the empty-content
check in `generateCaption` passes for `" "`, and `trim` then yields `""`). -/
def execBlank : BatchCaptionJob → Except String CaptionResult :=
  fun _ => .ok { caption := "", model := "gpt-4o", tokensUsed := 3, confidence := 90 }

/-- A `generateCaption` outcome that succeeds with a normal caption. -/
def execGood : BatchCaptionJob → Except String CaptionResult :=
  fun _ => .ok { caption := "A cat.", model := "gpt-4o", tokensUsed := 12, confidence := 90 }

/-- A `generateCaption` outcome that throws. -/
def execFail : BatchCaptionJob → Except String CaptionResult :=
  fun _ => .error "boom"

/-- A storage configuration for concrete evaluations. -/
def demoConfig : Storage.StorageConfig :=
  { accessKeyId := "AK", secretAccessKey := "SK", bucket := "bkt", region := "r1",
    endpoint := "https://s3.example.com" }

/-- A media asset that has already reached `uploaded`. -/
def uploadedAsset : MediaAsset :=
  { id := 1, datasetId := 1, requirementId := 1, status := .uploaded }

/-- A finalize call that explicitly passes `status = "pending_upload"`. -/
def backwardFinalize : FinalizeInput :=
  { assetId := 1, status := .pending_upload }

/-- Toy crypto primitives over strings, enough to evaluate the signing
pipeline concretely. -/
def demoPrims : Storage.CryptoPrims String :=
  { hmac := fun k v => "H(" ++ k ++ "," ++ v ++ ")"
    keyOfString := fun s => s
    hexDigest := fun b => b
    sha256Hex := fun s => "S(" ++ s ++ ")" }

/-- A clean-stop chat choice whose content trims to "A dog.". -/
def demoChoice : ChatChoice :=
  { message := { content := " A dog. " }, finish_reason := "stop" }

/-- A successful chat-completion response. -/
def demoResp : HttpResponse :=
  { ok := true, status := 200,
    body := { choices := [demoChoice], usage := some 5, model := "gpt-4o" } }

end Cyop

namespace Cyop

/-! ## Supporting lemmas -/

theorem approveRow_id (now : Nat) (approvedBy sessionEmail : Option String) (c : Caption) :
    (approveRow now approvedBy sessionEmail c).id = c.id := rfl

theorem rejectRow_id (now : Nat) (reason : Option String) (c : Caption) :
    (rejectRow now reason c).id = c.id := rfl

/-- A keyed single-row update finds no row after the update exactly when no
row had the key before it (the updater preserves ids). -/
theorem mapped_find_none_iff (db : List Caption) (id : Nat) (f : Caption → Caption)
    (hf : ∀ c, (f c).id = c.id) :
    ((db.map fun c => if c.id = id then f c else c).find? (fun c => c.id = id) = none)
      ↔ ∀ c ∈ db, c.id ≠ id := by
  rw [List.find?_eq_none]
  constructor
  · intro H c hc
    have := H (if c.id = id then f c else c) (List.mem_map_of_mem _ hc)
    by_cases hcid : c.id = id
    · exfalso
      apply this
      simp [hcid, hf]
    · exact hcid
  · intro H x hx
    obtain ⟨c, hc, rfl⟩ := List.mem_map.mp hx
    have hcid := H c hc
    simp [hcid]

/-! ## C5: export caption text selection -/

/-- C5 (counterexample): with `finalCaption` present but empty and a
non-empty `manualCaption`, the export code (falsy `||` chain) picks the
manual caption, while the claimed nullish chain
`finalCaption ?? manualCaption ?? aiCaption ?? ""` would pick the empty
final caption.  The claim as stated is false on this row. -/
theorem c5_nullish_counterexample :
    exportCaptionText
        { id := 1, originalName := "a.jpg", aiCaption := some "ai text",
          manualCaption := some "manual text", finalCaption := some "" } = "manual text" ∧
      specNullishCaptionText
        { id := 1, originalName := "a.jpg", aiCaption := some "ai text",
          manualCaption := some "manual text", finalCaption := some "" } = "" :=
  ⟨rfl, rfl⟩

/-- C5 (amended): the caption text used by the CSV and the TXT export is the
first of `finalCaption`, `manualCaption`, `aiCaption` that is non-null AND
non-empty (a present-but-empty string is skipped), and the empty string when
none qualifies. -/
theorem c5_export_uses_first_nonempty (r : ExportRow) :
    exportCaptionText r =
      (((r.finalCaption.filter (fun s => s != "")).orElse
          (fun _ => r.manualCaption.filter (fun s => s != ""))).orElse
          (fun _ => r.aiCaption.filter (fun s => s != ""))).getD "" ∧
    (txtFile r).2 = exportCaptionText r ∧
    csvLine r =
      "\"" ++ r.originalName ++ "\",\"" ++ csvEscape (exportCaptionText r) ++ "\",\"" ++
        r.status.asString ++ "\",\"" ++ orFalsy r.model "" ++ "\",\"" ++
        confidenceCell r.confidence ++ "\"" := by
  refine ⟨?_, rfl, rfl⟩
  cases hf : r.finalCaption <;> cases hm : r.manualCaption <;> cases ha : r.aiCaption <;>
    simp_all [exportCaptionText, orFalsy, Option.filter, Option.orElse, Option.getD] <;>
      split_ifs <;> simp_all

/-! ## C10: batch approve/reject versus single approve/reject -/

/-- C10: `batchApprove`/`batchReject` return `n` counting the rows whose ids
actually matched (possibly 0), leave non-matching rows unchanged and have no
not-found path; single `approve`/`reject` throw NOT_FOUND exactly when the
id matches no row. -/
theorem c10_batch_vs_single (db : List Caption) (ids : List Nat)
    (approvedBy sessionEmail reason : Option String) (now id : Nat) :
    (∃ st, captionsBatchApprove db ids approvedBy sessionEmail now =
        .ok (st, (db.filter (fun c => ids.contains c.id)).length) ∧
        ∀ c ∈ db, ids.contains c.id = false → c ∈ st) ∧
    (∃ st, captionsBatchReject db ids reason now =
        .ok (st, (db.filter (fun c => ids.contains c.id)).length) ∧
        ∀ c ∈ db, ids.contains c.id = false → c ∈ st) ∧
    (captionsApprove db id approvedBy sessionEmail now = .error (.notFound "Caption not found")
      ↔ ∀ c ∈ db, c.id ≠ id) ∧
    (captionsReject db id reason now = .error (.notFound "Caption not found")
      ↔ ∀ c ∈ db, c.id ≠ id) := by
  refine ⟨?_, ?_, ?_, ?_⟩
  · refine ⟨_, rfl, ?_⟩
    intro c hc hnot
    have hnot' : ¬ (c.id ∈ ids) := by simpa using hnot
    have := List.mem_map_of_mem
      (fun c => if ids.contains c.id then approveRow now approvedBy sessionEmail c else c) hc
    simpa [hnot'] using this
  · refine ⟨_, rfl, ?_⟩
    intro c hc hnot
    have hnot' : ¬ (c.id ∈ ids) := by simpa using hnot
    have := List.mem_map_of_mem
      (fun c => if ids.contains c.id then rejectRow now reason c else c) hc
    simpa [hnot'] using this
  · unfold captionsApprove
    rcases hfind : (db.map fun c =>
        if c.id = id then approveRow now approvedBy sessionEmail c else c).find?
          (fun c => c.id = id) with _ | c
    · simp only [hfind]
      rw [← mapped_find_none_iff db id _ (approveRow_id now approvedBy sessionEmail)]
      simp [hfind]
    · simp only [hfind]
      constructor
      · intro h
        exact absurd h (by simp)
      · intro h
        exfalso
        have := (mapped_find_none_iff db id _ (approveRow_id now approvedBy sessionEmail)).mpr h
        rw [this] at hfind
        exact Option.noConfusion hfind
  · unfold captionsReject
    rcases hfind : (db.map fun c =>
        if c.id = id then rejectRow now reason c else c).find?
          (fun c => c.id = id) with _ | c
    · simp only [hfind]
      rw [← mapped_find_none_iff db id _ (rejectRow_id now reason)]
      simp [hfind]
    · simp only [hfind]
      constructor
      · intro h
        exact absurd h (by simp)
      · intro h
        exfalso
        have := (mapped_find_none_iff db id _ (rejectRow_id now reason)).mpr h
        rw [this] at hfind
        exact Option.noConfusion hfind

/-- C10 witness: a database of two rows, a batch over one present and one
missing id (count 1, no error), and a single approve on a missing id
(NOT_FOUND). -/
theorem c10_batch_vs_single_witness :
    (∃ st, captionsBatchApprove [{ id := 1, mediaAssetId := 1 }] [1, 5] none (some "r@x") 3 =
        .ok (st, (([{ id := 1, mediaAssetId := 1 }] : List Caption).filter
          (fun c => [1, 5].contains c.id)).length) ∧
        ∀ c ∈ ([{ id := 1, mediaAssetId := 1 }] : List Caption),
          [1, 5].contains c.id = false → c ∈ st) ∧
    (∃ st, captionsBatchReject [{ id := 1, mediaAssetId := 1 }] [1, 5] (some "bad") 3 =
        .ok (st, (([{ id := 1, mediaAssetId := 1 }] : List Caption).filter
          (fun c => [1, 5].contains c.id)).length) ∧
        ∀ c ∈ ([{ id := 1, mediaAssetId := 1 }] : List Caption),
          [1, 5].contains c.id = false → c ∈ st) ∧
    (captionsApprove [{ id := 1, mediaAssetId := 1 }] 5 none (some "r@x") 3 =
        .error (.notFound "Caption not found")
      ↔ ∀ c ∈ ([{ id := 1, mediaAssetId := 1 }] : List Caption), c.id ≠ 5) ∧
    (captionsReject [{ id := 1, mediaAssetId := 1 }] 5 (some "bad") 3 =
        .error (.notFound "Caption not found")
      ↔ ∀ c ∈ ([{ id := 1, mediaAssetId := 1 }] : List Caption), c.id ≠ 5) :=
  c10_batch_vs_single [{ id := 1, mediaAssetId := 1 }] [1, 5] none (some "r@x") (some "bad") 3 5

end Cyop

namespace Cyop

/-! ## C3 / C4: triggerCaptioning idempotence and regenerate resets -/

theorem insertRecords_length (nextId : Nat) (templateId : Option Nat) (now : Nat)
    (l : List MediaAssetRow) : (insertRecords nextId templateId now l).length = l.length := by
  induction l generalizing nextId with
  | nil => rfl
  | cons a rest ih => simp [insertRecords, ih]

theorem mem_insertRecords (nextId : Nat) (templateId : Option Nat) (now : Nat)
    (l : List MediaAssetRow) (c : Caption) (hc : c ∈ insertRecords nextId templateId now l) :
    ∃ a ∈ l, c.mediaAssetId = a.id ∧ c.status = .processing ∧
      c.promptTemplateId = templateId := by
  induction l generalizing nextId with
  | nil => simp [insertRecords] at hc
  | cons a rest ih =>
    simp only [insertRecords, List.mem_cons] at hc
    rcases hc with rfl | hc
    · exact ⟨a, by simp, rfl, rfl, rfl⟩
    · obtain ⟨a', ha', h⟩ := ih (nextId + 1) hc
      exact ⟨a', List.mem_cons_of_mem _ ha', h⟩

theorem insertRecords_covers (nextId : Nat) (templateId : Option Nat) (now : Nat)
    (l : List MediaAssetRow) (a : MediaAssetRow) (ha : a ∈ l) :
    ∃ c ∈ insertRecords nextId templateId now l, c.mediaAssetId = a.id := by
  induction l generalizing nextId with
  | nil => simp at ha
  | cons b rest ih =>
    rcases List.mem_cons.mp ha with rfl | ha'
    · refine ⟨{ id := nextId, mediaAssetId := a.id, promptTemplateId := templateId,
                status := .processing, createdAt := now, updatedAt := now }, ?_, rfl⟩
      simp [insertRecords]
    · obtain ⟨c, hc, hcid⟩ := ih (nextId + 1) ha'
      exact ⟨c, List.mem_cons_of_mem _ hc, hcid⟩

/-- With no explicit asset-id filter, `triggerSelectable` holds exactly for
the dataset's assets that have no caption row. -/
theorem triggerSelectable_none_iff (st : Db) (datasetId : Nat) (a : MediaAssetRow) :
    triggerSelectable st datasetId none a = true ↔
      a.datasetId = datasetId ∧ ∀ c ∈ st.captions, c.mediaAssetId ≠ a.id := by
  simp [triggerSelectable]

/-- C3: `triggerCaptioning` queues exactly one `processing` caption row per
media asset of the dataset that has no caption row at all, and a second run
over the unchanged dataset queues zero rows and leaves the captions table
unchanged — the anti-join ignores the status of existing caption rows. -/
theorem c3_trigger_idempotent (st : Db) (datasetId : Nat) (tmpl : Option Nat)
    (now1 now2 : Nat) :
    ((triggerCaptioning st datasetId tmpl none now1).2.queued =
      (st.mediaAssets.filter (triggerSelectable st datasetId none)).length) ∧
    (∀ c ∈ (triggerCaptioning st datasetId tmpl none now1).1.captions,
      c ∈ st.captions ∨
        (c.status = .processing ∧ ∃ a ∈ st.mediaAssets,
          triggerSelectable st datasetId none a = true ∧ c.mediaAssetId = a.id)) ∧
    ((triggerCaptioning (triggerCaptioning st datasetId tmpl none now1).1
        datasetId tmpl none now2).2.queued = 0) ∧
    ((triggerCaptioning (triggerCaptioning st datasetId tmpl none now1).1
        datasetId tmpl none now2).1.captions =
      (triggerCaptioning st datasetId tmpl none now1).1.captions) := by
  by_cases hA : (st.mediaAssets.filter (triggerSelectable st datasetId none)).isEmpty
  · have hA' : st.mediaAssets.filter (triggerSelectable st datasetId none) = [] :=
      List.isEmpty_iff.mp hA
    simp only [triggerCaptioning, hA, if_true]
    refine ⟨by simp [hA'], fun c hc => Or.inl hc, ?_, ?_⟩ <;>
      simp [triggerCaptioning, hA]
  · simp only [triggerCaptioning, hA, if_false]
    set A := st.mediaAssets.filter (triggerSelectable st datasetId none) with hAdef
    set tid := resolveTemplateId st tmpl with htid
    set records := insertRecords st.nextCaptionId tid now1 A with hrecords
    set st1 : Db :=
      { st with
        captions := st.captions ++ records
        nextCaptionId := st.nextCaptionId + records.length } with hst1
    have hsecond : st1.mediaAssets.filter (triggerSelectable st1 datasetId none) = [] := by
      rw [List.filter_eq_nil]
      intro a hamem hsel
      have hmedia : st1.mediaAssets = st.mediaAssets := rfl
      rw [hmedia] at hamem
      rw [triggerSelectable_none_iff] at hsel
      obtain ⟨hds, hall⟩ := hsel
      have hcap1 : st1.captions = st.captions ++ records := rfl
      rw [hcap1] at hall
      have hsel0 : triggerSelectable st datasetId none a = true :=
        (triggerSelectable_none_iff st datasetId a).mpr
          ⟨hds, fun c hc => hall c (List.mem_append.mpr (Or.inl hc))⟩
      have haA : a ∈ A := by
        rw [hAdef]
        exact List.mem_filter.mpr ⟨hamem, hsel0⟩
      obtain ⟨c, hcrec, hcid⟩ := insertRecords_covers st.nextCaptionId tid now1 A a haA
      exact hall c (List.mem_append.mpr (Or.inr hcrec)) hcid
    have hsecondEmpty : (st1.mediaAssets.filter (triggerSelectable st1 datasetId none)).isEmpty := by
      rw [hsecond]
      rfl
    refine ⟨?_, ?_, ?_, ?_⟩
    · rw [hrecords]
      exact insertRecords_length _ _ _ _
    · intro c hc
      rcases List.mem_append.mp hc with h | h
      · exact Or.inl h
      · obtain ⟨a, haA, hcid, hstat, -⟩ :=
          mem_insertRecords st.nextCaptionId tid now1 A c h
        have := List.mem_filter.mp (hAdef ▸ haA)
        exact Or.inr ⟨hstat, a, this.1, this.2, hcid⟩
    · simp [triggerCaptioning, hsecondEmpty]
    · simp [triggerCaptioning, hsecondEmpty]

/-- C4: every caption whose id is passed to `regenerate` ends in `processing`
with `aiCaption`, `confidence`, `tokensUsed` and `generatedAt` all reset to
null, its prompt template reassigned to the explicit template id when one is
given and otherwise to the template flagged `isDefault`; `regenerate` writes
nothing else, so the reset state precedes any new generation result. -/
theorem c4_regenerate_resets (st : Db) (ids : List Nat) (tmpl : Option Nat) (now : Nat)
    (c : Caption) (hc : c ∈ st.captions) (hid : c.id ∈ ids) :
    ∃ c' ∈ (regenerateRows st ids tmpl now).1.captions,
      c'.id = c.id ∧ c'.status = .processing ∧
      c'.aiCaption = none ∧ c'.confidence = none ∧ c'.tokensUsed = none ∧
      c'.generatedAt = none ∧
      (∀ t, tmpl = some t → c'.promptTemplateId = some t) ∧
      (tmpl = none →
        ∀ dt, st.promptTemplates.find? (fun t => t.isDefault) = some dt →
          c'.promptTemplateId = some dt.id) := by
  have hcontains : ids.contains c.id = true := by
    simpa using hid
  refine ⟨_, List.mem_map_of_mem _ hc, ?_⟩
  simp only [regenerateRows, hcontains, if_true]
  refine ⟨?_, ?_, ?_, ?_, ?_, ?_, ?_, ?_⟩
  · trivial
  · trivial
  · trivial
  · trivial
  · trivial
  · trivial
  · rintro t rfl
    simp [resolveTemplateId]
  · rintro rfl dt hdt
    simp [resolveTemplateId, hdt]

/-- C4 witness: one stale rejected caption regenerated with no explicit
template and a default template present. -/
theorem c4_regenerate_resets_witness :
    ∃ c' ∈ (regenerateRows staleDb [4] none 11).1.captions,
      c'.id = staleRow.id ∧ c'.status = .processing ∧
      c'.aiCaption = none ∧ c'.confidence = none ∧ c'.tokensUsed = none ∧
      c'.generatedAt = none ∧
      (∀ t, (none : Option Nat) = some t → c'.promptTemplateId = some t) ∧
      ((none : Option Nat) = none →
        ∀ dt, staleDb.promptTemplates.find? (fun t => t.isDefault) = some dt →
          c'.promptTemplateId = some dt.id) :=
  c4_regenerate_resets staleDb [4] none 11 staleRow (by simp [staleDb])
    (by simp [staleRow])

end Cyop

namespace Cyop

/-! ## C1: how processPendingCaptions persists batch outcomes -/

theorem applyResult_id (now : Nat) (r : BatchCaptionResult) (c : Caption) :
    (applyResult now r c).id = c.id := by
  simp only [applyResult]
  split_ifs <;> rfl

theorem applyResult_not_matching (now : Nat) (r : BatchCaptionResult) (c : Caption)
    (h : c.id ≠ r.captionId) : applyResult now r c = c := by
  simp [applyResult, h]

theorem resultOf_captionId (exec : BatchCaptionJob → Except String CaptionResult)
    (j : BatchCaptionJob) : (resultOf exec j).captionId = j.captionId := by
  cases hexec : exec j <;> simp [resultOf, hexec]

theorem persistResults_eq_map (now : Nat) (rs : List BatchCaptionResult) (db : List Caption) :
    persistResults now db rs =
      db.map (fun c => rs.foldl (fun c r => applyResult now r c) c) := by
  induction rs generalizing db with
  | nil => simp [persistResults]
  | cons r rs ih =>
    rw [persistResults, ih, List.map_map]
    rfl

theorem foldl_apply_no_match (now : Nat) (rs : List BatchCaptionResult) (c : Caption)
    (h : ∀ r ∈ rs, r.captionId ≠ c.id) :
    rs.foldl (fun c r => applyResult now r c) c = c := by
  induction rs with
  | nil => rfl
  | cons r rs ih =>
    have hr : applyResult now r c = c :=
      applyResult_not_matching now r c (fun he => h r (by simp) (he.symm))
    simp only [List.foldl_cons, hr]
    exact ih (fun r' hr' => h r' (by simp [hr']))

/-- C1 (counterexample): a batch result with `success = true` but an empty
caption text — reachable, because `generateCaption` accepts whitespace-only
content and trims it to `""` — is persisted into the `rejected` branch with
the generic fallback reason, not into the `completed` branch the claim
requires for every succeeding job. -/
theorem c1_success_rejected_counterexample :
    (resultOf execBlank jobOne).success = true ∧
    persistResults 7 [rowOne] ([jobOne].map (resultOf execBlank)) =
      [{ rowOne with status := .rejected,
                     rejectionReason := some "Caption generation failed", updatedAt := 7 }] ∧
    ∀ c' ∈ persistResults 7 [rowOne] ([jobOne].map (resultOf execBlank)),
      c'.status ≠ .completed ∧ c'.aiCaption = none := by
  refine ⟨rfl, rfl, ?_⟩
  decide

/-- C1 (amended): in the persistence loop over a batch of results (one per
job, distinct caption ids), a job that succeeds **with a non-empty caption**
updates its row to `completed` with `aiCaption`/`finalCaption` set to the
text, model/confidence/tokensUsed stored and `generatedAt` stamped; a job
that fails — or succeeds with an empty caption — sets its row to `rejected`
with `rejectionReason` the error message, or the fallback
"Caption generation failed" when no non-empty message exists. -/
theorem c1_worker_persists_results (now : Nat) (db : List Caption)
    (jobs : List BatchCaptionJob) (exec : BatchCaptionJob → Except String CaptionResult)
    (hnd : (jobs.map (fun j => j.captionId)).Nodup)
    (j : BatchCaptionJob) (hj : j ∈ jobs) (c : Caption) (hc : c ∈ db)
    (hid : c.id = j.captionId) :
    ∃ c' ∈ persistResults now db (jobs.map (resultOf exec)),
      c'.id = c.id ∧
      (match exec j with
       | .ok res =>
         if res.caption = "" then
           c'.status = .rejected ∧ c'.rejectionReason = some "Caption generation failed"
         else
           c'.status = .completed ∧ c'.aiCaption = some res.caption ∧
           c'.finalCaption = some res.caption ∧ c'.model = some res.model ∧
           c'.confidence = some res.confidence ∧ c'.tokensUsed = some res.tokensUsed ∧
           c'.generatedAt = some now
       | .error e =>
         c'.status = .rejected ∧
         c'.rejectionReason = some (if e = "" then "Caption generation failed" else e)) := by
  obtain ⟨l1, l2, rfl⟩ := List.append_of_mem hj
  have hnotl1 : j.captionId ∉ l1.map (fun j => j.captionId) := by
    intro hmem
    rw [List.map_append, List.map_cons] at hnd
    exact (List.nodup_append.mp hnd).2.2 hmem (by simp)
  have hnotl2 : j.captionId ∉ l2.map (fun j => j.captionId) := by
    rw [List.map_append, List.map_cons] at hnd
    exact (List.nodup_cons.mp (List.nodup_append.mp hnd).2.1).1
  rw [persistResults_eq_map]
  refine ⟨_, List.mem_map_of_mem _ hc, ?_⟩
  have hfold :
      ((l1 ++ j :: l2).map (resultOf exec)).foldl (fun c r => applyResult now r c) c =
        ((l2.map (resultOf exec)).foldl (fun c r => applyResult now r c)
          (applyResult now (resultOf exec j) c)) := by
    rw [List.map_append, List.map_cons, List.foldl_append, List.foldl_cons]
    rw [foldl_apply_no_match now (l1.map (resultOf exec)) c]
    intro r hr
    obtain ⟨x, hx, rfl⟩ := List.mem_map.mp hr
    rw [resultOf_captionId, hid]
    intro he
    exact hnotl1 (List.mem_map.mpr ⟨x, hx, he⟩)
  have hmid := applyResult_id now (resultOf exec j) c
  have hfold2 :
      (l2.map (resultOf exec)).foldl (fun c r => applyResult now r c)
          (applyResult now (resultOf exec j) c) =
        applyResult now (resultOf exec j) c := by
    apply foldl_apply_no_match
    intro r hr
    obtain ⟨x, hx, rfl⟩ := List.mem_map.mp hr
    rw [resultOf_captionId, hmid, hid]
    intro he
    exact hnotl2 (List.mem_map.mpr ⟨x, hx, he⟩)
  rw [hfold, hfold2]
  have hmatch : c.id = (resultOf exec j).captionId := by
    rw [resultOf_captionId]
    exact hid
  refine ⟨by rw [applyResult_id], ?_⟩
  cases hexec : exec j with
  | ok res =>
    by_cases hcap : res.caption = ""
    · simp [applyResult, resultOf, hexec, hmatch, truthyStr, hcap, orFalsy]
    · simp [applyResult, resultOf, hexec, hmatch, truthyStr, hcap, orFalsy]
  | error e =>
    by_cases he : e = ""
    · simp [applyResult, resultOf, hexec, hmatch, truthyStr, orFalsy, he]
    · simp [applyResult, resultOf, hexec, hmatch, truthyStr, orFalsy, he]

/-- C1 witness: a one-job batch succeeding with a non-empty caption is
persisted as `completed` with all the result columns stored. -/
theorem c1_worker_persists_results_witness :
    ∃ c' ∈ persistResults 7 [rowOne] ([jobOne].map (resultOf execGood)),
      c'.id = rowOne.id ∧
      (match execGood jobOne with
       | .ok res =>
         if res.caption = "" then
           c'.status = .rejected ∧ c'.rejectionReason = some "Caption generation failed"
         else
           c'.status = .completed ∧ c'.aiCaption = some res.caption ∧
           c'.finalCaption = some res.caption ∧ c'.model = some res.model ∧
           c'.confidence = some res.confidence ∧ c'.tokensUsed = some res.tokensUsed ∧
           c'.generatedAt = some 7
       | .error e =>
         c'.status = .rejected ∧
         c'.rejectionReason = some (if e = "" then "Caption generation failed" else e)) :=
  c1_worker_persists_results 7 [rowOne] [jobOne] execGood (by simp) jobOne (by simp)
    rowOne (by simp) rfl

end Cyop

namespace Cyop

/-! ## C2: the bounded worker pool completes every job exactly once -/

theorem poolReach_trans {k : Nat} {exec : BatchCaptionJob → Except String CaptionResult}
    {s t u : PoolState} (h1 : PoolReach k exec s t) (h2 : PoolReach k exec t u) :
    PoolReach k exec s u := by
  induction h2 with
  | refl => exact h1
  | tail _ hstep ih => exact PoolReach.tail ih hstep

/-- Every reachable pool state accounts for every job exactly once — still
queued, in flight, or contributed to `results` — and holds at most
`concurrency` jobs in flight. -/
theorem poolReach_invariant (k : Nat) (exec : BatchCaptionJob → Except String CaptionResult)
    (jobs : List BatchCaptionJob) (s : PoolState)
    (h : PoolReach k exec (initPool jobs) s) :
    ((↑s.results : Multiset BatchCaptionResult) +
        Multiset.map (resultOf exec) (s.inFlight + ↑s.queue) =
      Multiset.map (resultOf exec) (↑jobs : Multiset BatchCaptionJob)) ∧
    Multiset.card s.inFlight ≤ k := by
  induction h with
  | refl => simp [initPool]
  | tail _ hstep ih =>
    obtain ⟨iheq, ihcard⟩ := ih
    cases hstep with
    | pop j q inF res hfree =>
      constructor
      · rw [← iheq]
        congr 1
        congr 1
        simp only [← Multiset.cons_coe, Multiset.cons_add, Multiset.add_cons]
      · simpa using hfree
    | finish j q inF res hin =>
      constructor
      · have hmap : Multiset.map (resultOf exec) (inF + ↑q) =
            resultOf exec j ::ₘ Multiset.map (resultOf exec) (inF.erase j + ↑q) := by
          conv_lhs => rw [← Multiset.cons_erase hin]
          rw [Multiset.cons_add, Multiset.map_cons]
        rw [hmap] at iheq
        rw [← iheq]
        have hres : (↑(res ++ [resultOf exec j]) : Multiset BatchCaptionResult) =
            ↑res + {resultOf exec j} := rfl
        rw [hres, add_assoc, Multiset.singleton_add]
      · calc Multiset.card (inF.erase j) ≤ Multiset.card inF := by
              rw [Multiset.card_erase_of_mem hin]
              exact Nat.pred_le _
          _ ≤ k := ihcard

/-- A sequential schedule drains the whole queue. -/
theorem pool_drain (k : Nat) (exec : BatchCaptionJob → Except String CaptionResult)
    (hk : 1 ≤ k) (q : List BatchCaptionJob) :
    ∀ res : List BatchCaptionResult,
      PoolReach k exec ⟨q, 0, res⟩ ⟨[], 0, res ++ q.map (resultOf exec)⟩ := by
  induction q with
  | nil =>
    intro res
    have h0 : PoolReach k exec ⟨[], 0, res⟩ ⟨[], 0, res⟩ := PoolReach.refl _
    simpa using h0
  | cons j q ih =>
    intro res
    have s1 : PoolStep k exec ⟨j :: q, 0, res⟩ ⟨q, j ::ₘ 0, res⟩ :=
      PoolStep.pop j q 0 res (by simpa using hk)
    have s2 : PoolStep k exec ⟨q, j ::ₘ 0, res⟩
        ⟨q, (j ::ₘ (0 : Multiset BatchCaptionJob)).erase j, res ++ [resultOf exec j]⟩ :=
      PoolStep.finish j q (j ::ₘ 0) res (by simp)
    have herase : (j ::ₘ (0 : Multiset BatchCaptionJob)).erase j = 0 := by simp
    have hreach2 : PoolReach k exec ⟨j :: q, 0, res⟩ ⟨q, 0, res ++ [resultOf exec j]⟩ := by
      have h := PoolReach.tail (PoolReach.tail (PoolReach.refl _) s1) s2
      rw [herase] at h
      exact h
    have h := poolReach_trans hreach2 (ih (res ++ [resultOf exec j]))
    simpa using h

/-- C2: for any interleaving of at least one worker that the event loop can
produce, the drained pool returns exactly one result per submitted job — a
permutation of the per-job outcomes, nothing dropped, nothing duplicated; a
job whose generation raised an error contributes its `success = false`
result carrying the error message without disturbing any other job's
result; at most `concurrency` jobs are ever in flight; and a complete run
exists. -/
theorem c2_batch_pool (jobs : List BatchCaptionJob) (concurrency : Nat)
    (exec : BatchCaptionJob → Except String CaptionResult) (hconc : 1 ≤ concurrency) :
    (∀ s, PoolReach concurrency exec (initPool jobs) s → PoolDone s →
      s.results.Perm (jobs.map (resultOf exec)) ∧
      ∀ j ∈ jobs, ∀ e, exec j = .error e →
        ({ captionId := j.captionId, success := false, error := some e } :
          BatchCaptionResult) ∈ s.results) ∧
    (∀ s, PoolReach concurrency exec (initPool jobs) s →
      Multiset.card s.inFlight ≤ concurrency) ∧
    (∃ s, PoolReach concurrency exec (initPool jobs) s ∧ PoolDone s) := by
  refine ⟨?_, ?_, ?_⟩
  · intro s hreach hdone
    obtain ⟨heq, -⟩ := poolReach_invariant concurrency exec jobs s hreach
    obtain ⟨hq, hf⟩ := hdone
    rw [hq, hf] at heq
    simp only [Multiset.coe_nil, add_zero, Multiset.map_zero, zero_add] at heq
    have hperm : s.results.Perm (jobs.map (resultOf exec)) := by
      rw [← Multiset.coe_eq_coe]
      rw [heq]
      simp [Multiset.map_coe]
    refine ⟨hperm, ?_⟩
    intro j hj e hexec
    have hmem : resultOf exec j ∈ jobs.map (resultOf exec) :=
      List.mem_map_of_mem _ hj
    have : resultOf exec j ∈ s.results := hperm.mem_iff.mpr hmem
    simpa [resultOf, hexec] using this
  · intro s hreach
    exact (poolReach_invariant concurrency exec jobs s hreach).2
  · exact ⟨_, pool_drain concurrency exec hconc jobs [], ⟨rfl, rfl⟩⟩

/-- C2 witness: one failing job, one worker — the drained pool is reachable
and complete. -/
theorem c2_batch_pool_witness :
    (1 ≤ 1) ∧ ∃ s, PoolReach 1 execFail (initPool [jobOne]) s ∧ PoolDone s :=
  ⟨by decide, (c2_batch_pool [jobOne] 1 execFail (by decide)).2.2⟩

end Cyop

namespace Cyop

/-! ## C6: media asset status lifecycle -/

/-- C6 (counterexample): `finalizeUpload` writes whatever status its input
carries without checking the row's current status, so a caller passing
`status = "pending_upload"` moves an `uploaded` asset backward — the claimed
"never transitions backward" invariant fails. -/
theorem c6_backward_counterexample :
    uploadedAsset.status = .uploaded ∧
    ∃ st' a, mediaFinalizeUpload [uploadedAsset] backwardFinalize 9 = .ok (st', a) ∧
      a.id = uploadedAsset.id ∧ a.status = .pending_upload :=
  ⟨rfl, _, _, rfl, rfl, rfl⟩

/-- C6 (amended): `requestUpload` creates every asset in `pending_upload`,
and `finalizeUpload` stamps exactly the status supplied in its input — which
defaults to `uploaded` — without inspecting the prior status; the lifecycle
is forward-only only for calls that keep the default, since an explicit
status argument can move an asset from `uploaded` back to `pending_upload`. -/
theorem c6_lifecycle_amended :
    (∀ datasets st nextId datasetId fileName mimeType size pub cfg nowMs now st' a,
      mediaRequestUpload datasets st nextId datasetId fileName mimeType size pub cfg
          nowMs now = .ok (st', a) →
      a.status = .pending_upload) ∧
    (∀ st input now st' a,
      mediaFinalizeUpload st input now = .ok (st', a) → a.status = input.status) ∧
    (∀ st assetId now st' a,
      mediaFinalizeUpload st { assetId := assetId } now = .ok (st', a) →
      a.status = .uploaded) := by
  have hreq : ∀ datasets st nextId datasetId fileName mimeType size pub cfg nowMs now st' a,
      mediaRequestUpload datasets st nextId datasetId fileName mimeType size pub cfg
          nowMs now = .ok (st', a) →
      a.status = .pending_upload := by
    intro datasets st nextId datasetId fileName mimeType size pub cfg nowMs now st' a h
    rw [mediaRequestUpload.eq_def] at h
    rcases hfind : datasets.find? (fun d => d.id = datasetId) with _ | d
    · rw [hfind] at h
      exact absurd h (by simp)
    · rw [hfind] at h
      have hpair := Except.ok.inj h
      have ha := (Prod.mk.inj hpair).2
      rw [← ha]
  have hfin : ∀ st input now st' a,
      mediaFinalizeUpload st input now = .ok (st', a) → a.status = input.status := by
    intro st input now st' a h
    rw [mediaFinalizeUpload] at h
    rcases hfind : (st.map fun x =>
        if x.id = input.assetId then finalizePatch input now x else x).find?
          (fun x => x.id = input.assetId) with _ | a0
    · rw [hfind] at h
      exact absurd h (by simp)
    · rw [hfind] at h
      have hpair := Except.ok.inj h
      have ha := (Prod.mk.inj hpair).2
      rw [← ha]
      have hpred := List.find?_some hfind
      have hmem := List.mem_of_find?_eq_some hfind
      obtain ⟨x, hx, rfl⟩ := List.mem_map.mp hmem
      by_cases hxid : x.id = input.assetId
      · simp [hxid, finalizePatch]
      · exfalso
        rw [if_neg hxid] at hpred
        exact hxid (by simpa using hpred)
  exact ⟨hreq, hfin, fun st assetId now st' a h => hfin st _ now st' a h⟩

/-- C6 witness: a concrete request creates a `pending_upload` asset and a
concrete finalize with the default status yields `uploaded`. -/
theorem c6_lifecycle_amended_witness :
    (∃ st' a, mediaRequestUpload [{ id := 1, requirementId := 1 }] [] 1 1 "cat.jpg" none 10
        none demoConfig 111 5 = .ok (st', a) ∧ a.status = .pending_upload) ∧
    (∃ st' a, mediaFinalizeUpload [uploadedAsset] { assetId := 1 } 9 = .ok (st', a) ∧
      a.status = .uploaded) := by
  constructor
  · rcases hE : mediaRequestUpload [{ id := 1, requirementId := 1 }] [] 1 1 "cat.jpg" none 10
        none demoConfig 111 5 with e | p
    · exact absurd hE (by simp [mediaRequestUpload])
    · have hok : mediaRequestUpload [{ id := 1, requirementId := 1 }] [] 1 1 "cat.jpg" none 10
          none demoConfig 111 5 = .ok (p.1, p.2) := by rw [hE]
      exact ⟨p.1, p.2, rfl, c6_lifecycle_amended.1 _ _ _ _ _ _ _ _ _ _ _ p.1 p.2 hok⟩
  · rcases hE : mediaFinalizeUpload [uploadedAsset] { assetId := 1 } 9 with e | p
    · exact absurd hE (by simp [mediaFinalizeUpload, uploadedAsset, finalizePatch])
    · have hok : mediaFinalizeUpload [uploadedAsset] { assetId := 1 } 9 = .ok (p.1, p.2) := by
        rw [hE]
      exact ⟨p.1, p.2, rfl, c6_lifecycle_amended.2.2 _ 1 _ p.1 p.2 hok⟩

end Cyop

namespace Cyop

/-! ## C7: presigned-URL generation is deterministic -/

/-- C7: with identical configuration, key, content type, expiry and
timestamp, `createPresignedUploadUrl` reproduces the identical canonical
request, signature and URL (the clock is the only impurity; everything else
is a pure function of the inputs, for any choice of crypto primitives). -/
theorem c7_presign_deterministic {B : Type} (p : Storage.CryptoPrims B)
    (cfg1 cfg2 : Storage.StorageConfig) (key1 key2 ct1 ct2 : String)
    (e1 e2 : Nat) (now1 now2 : String)
    (hcfg : cfg1 = cfg2) (hkey : key1 = key2) (hct : ct1 = ct2) (he : e1 = e2)
    (hnow : now1 = now2) :
    (Storage.createPresignedUploadUrl p cfg1 key1 ct1 e1 now1).canonicalRequest =
      (Storage.createPresignedUploadUrl p cfg2 key2 ct2 e2 now2).canonicalRequest ∧
    (Storage.createPresignedUploadUrl p cfg1 key1 ct1 e1 now1).signature =
      (Storage.createPresignedUploadUrl p cfg2 key2 ct2 e2 now2).signature ∧
    (Storage.createPresignedUploadUrl p cfg1 key1 ct1 e1 now1).url =
      (Storage.createPresignedUploadUrl p cfg2 key2 ct2 e2 now2).url ∧
    Storage.createPresignedUploadUrl p cfg1 key1 ct1 e1 now1 =
      Storage.createPresignedUploadUrl p cfg2 key2 ct2 e2 now2 := by
  subst hcfg hkey hct he hnow
  exact ⟨rfl, rfl, rfl, rfl⟩

/-- C7 witness: the determinism theorem applied at one concrete request. -/
theorem c7_presign_deterministic_witness :
    (Storage.createPresignedUploadUrl demoPrims demoConfig "pics/cat 1.png" "image/png" 900
        "2024-01-02T03:04:05.678Z").canonicalRequest =
      (Storage.createPresignedUploadUrl demoPrims demoConfig "pics/cat 1.png" "image/png" 900
        "2024-01-02T03:04:05.678Z").canonicalRequest ∧
    (Storage.createPresignedUploadUrl demoPrims demoConfig "pics/cat 1.png" "image/png" 900
        "2024-01-02T03:04:05.678Z").signature =
      (Storage.createPresignedUploadUrl demoPrims demoConfig "pics/cat 1.png" "image/png" 900
        "2024-01-02T03:04:05.678Z").signature ∧
    (Storage.createPresignedUploadUrl demoPrims demoConfig "pics/cat 1.png" "image/png" 900
        "2024-01-02T03:04:05.678Z").url =
      (Storage.createPresignedUploadUrl demoPrims demoConfig "pics/cat 1.png" "image/png" 900
        "2024-01-02T03:04:05.678Z").url ∧
    Storage.createPresignedUploadUrl demoPrims demoConfig "pics/cat 1.png" "image/png" 900
        "2024-01-02T03:04:05.678Z" =
      Storage.createPresignedUploadUrl demoPrims demoConfig "pics/cat 1.png" "image/png" 900
        "2024-01-02T03:04:05.678Z" :=
  c7_presign_deterministic demoPrims demoConfig demoConfig "pics/cat 1.png" "pics/cat 1.png"
    "image/png" "image/png" 900 900 "2024-01-02T03:04:05.678Z" "2024-01-02T03:04:05.678Z"
    rfl rfl rfl rfl rfl

/-! ## C9: when generateCaption raises -/

/-- C9: `generateCaption` raises exactly when the API key is unconfigured
(immediately, with no fetch), the response status is non-success (message
carrying status code and body), or the first choice's content is missing or
empty; any other successful well-formed response yields a caption result
(the trimmed content) without raising. -/
theorem c9_generateCaption_errors (apiKey : Option String) (resp : HttpResponse) :
    (truthyStr apiKey = false →
      generateCaptionModel apiKey resp = (false, .error "OPENAI_API_KEY is not configured")) ∧
    (truthyStr apiKey = true →
      (generateCaptionModel apiKey resp).1 = true ∧
      ((∃ e, (generateCaptionModel apiKey resp).2 = .error e) ↔
        (resp.ok = false ∨ responseContent resp = none ∨ responseContent resp = some "")) ∧
      (resp.ok = false →
        (generateCaptionModel apiKey resp).2 =
          .error ("OpenAI API error: " ++ Nat.repr resp.status ++ " - " ++ resp.bodyText)) ∧
      (resp.ok = true → (responseContent resp = none ∨ responseContent resp = some "") →
        (generateCaptionModel apiKey resp).2 = .error "OpenAI returned empty response") ∧
      (resp.ok = true → ∀ content, responseContent resp = some content → content ≠ "" →
        ∃ res, (generateCaptionModel apiKey resp).2 = .ok res ∧
          res.caption = content.trim)) := by
  constructor
  · intro hkey
    simp [generateCaptionModel, hkey]
  · intro hkey
    rcases hok : resp.ok with _ | _
    · have h1 : (generateCaptionModel apiKey resp).1 = true := by
        simp [generateCaptionModel, hkey, hok]
      have h2 : (generateCaptionModel apiKey resp).2 =
          .error ("OpenAI API error: " ++ Nat.repr resp.status ++ " - " ++ resp.bodyText) := by
        simp [generateCaptionModel, hkey, hok]
      refine ⟨h1, ⟨fun _ => Or.inl rfl, fun _ => ⟨_, h2⟩⟩, fun _ => h2, ?_, ?_⟩
      · intro hbad
        exact absurd hbad (by decide)
      · intro hbad
        exact absurd hbad (by decide)
    · rcases hcont : responseContent resp with _ | content
      · have h1 : (generateCaptionModel apiKey resp).1 = true := by
          simp [generateCaptionModel, hkey, hok, hcont]
        have h2 : (generateCaptionModel apiKey resp).2 =
            .error "OpenAI returned empty response" := by
          simp [generateCaptionModel, hkey, hok, hcont]
        refine ⟨h1, ⟨fun _ => Or.inr (Or.inl rfl), fun _ => ⟨_, h2⟩⟩, ?_, fun _ _ => h2, ?_⟩
        · intro hbad
          exact absurd hbad (by decide)
        · intro _ content hc
          exact absurd hc (by simp)
      · by_cases hempty : content = ""
        · subst hempty
          have h1 : (generateCaptionModel apiKey resp).1 = true := by
            simp [generateCaptionModel, hkey, hok, hcont]
          have h2 : (generateCaptionModel apiKey resp).2 =
              .error "OpenAI returned empty response" := by
            simp [generateCaptionModel, hkey, hok, hcont]
          refine ⟨h1, ⟨fun _ => Or.inr (Or.inr rfl), fun _ => ⟨_, h2⟩⟩, ?_, fun _ _ => h2, ?_⟩
          · intro hbad
            exact absurd hbad (by decide)
          · intro _ c hc hne
            exact absurd (Option.some.inj hc).symm hne
        · have h1 : (generateCaptionModel apiKey resp).1 = true := by
            simp [generateCaptionModel, hkey, hok, hcont, hempty]
          have h2 : (generateCaptionModel apiKey resp).2 = .ok
              { caption := content.trim
                model := resp.body.model
                tokensUsed := resp.body.usage.getD 0
                confidence :=
                  if (resp.body.choices.head?).map (fun ch => ch.finish_reason) = some "stop"
                  then 90 else 70 } := by
            simp [generateCaptionModel, hkey, hok, hcont, hempty]
          refine ⟨h1, ⟨?_, ?_⟩, ?_, ?_, ?_⟩
          · rintro ⟨e, he⟩
            rw [h2] at he
            exact absurd he (by simp)
          · rintro (hbad | hbad | hbad)
            · exact absurd hbad (by decide)
            · exact absurd hbad (by simp)
            · exact absurd (Option.some.inj hbad) hempty
          · intro hbad
            exact absurd hbad (by decide)
          · rintro - (hbad | hbad)
            · exact absurd hbad (by simp)
            · exact absurd (Option.some.inj hbad) hempty
          · rintro - c hc -
            obtain rfl := Option.some.inj hc
            exact ⟨_, h2, rfl⟩

end Cyop

namespace Cyop

/-- C9 witness: the error-case characterization applied to a configured key
and a clean successful response. -/
theorem c9_generateCaption_errors_witness :
    (truthyStr (some "sk-test") = false →
      generateCaptionModel (some "sk-test") demoResp =
        (false, .error "OPENAI_API_KEY is not configured")) ∧
    (truthyStr (some "sk-test") = true →
      (generateCaptionModel (some "sk-test") demoResp).1 = true ∧
      ((∃ e, (generateCaptionModel (some "sk-test") demoResp).2 = .error e) ↔
        (demoResp.ok = false ∨ responseContent demoResp = none ∨
          responseContent demoResp = some "")) ∧
      (demoResp.ok = false →
        (generateCaptionModel (some "sk-test") demoResp).2 =
          .error ("OpenAI API error: " ++ Nat.repr demoResp.status ++ " - " ++
            demoResp.bodyText)) ∧
      (demoResp.ok = true →
        (responseContent demoResp = none ∨ responseContent demoResp = some "") →
        (generateCaptionModel (some "sk-test") demoResp).2 =
          .error "OpenAI returned empty response") ∧
      (demoResp.ok = true → ∀ content, responseContent demoResp = some content →
        content ≠ "" →
        ∃ res, (generateCaptionModel (some "sk-test") demoResp).2 = .ok res ∧
          res.caption = content.trim)) :=
  c9_generateCaption_errors (some "sk-test") demoResp

end Cyop

namespace Cyop.Storage

/-! ## C8: shape, bounds and freshness of storage keys -/

theorem digitChar_isDigit : ∀ d, d < 10 → (Char.ofNat (48 + d)).isDigit = true := by decide

theorem digitChar_toNat : ∀ d, d < 10 → (Char.ofNat (48 + d)).toNat = 48 + d := by decide

theorem decCharsAux_digits (fuel : Nat) : ∀ (n : Nat), ∀ c ∈ decCharsAux fuel n,
    c.isDigit = true := by
  induction fuel with
  | zero =>
    intro n c hc
    simp only [decCharsAux, List.mem_singleton] at hc
    subst hc
    exact digitChar_isDigit _ (Nat.mod_lt _ (by omega))
  | succ fuel ih =>
    intro n c hc
    rw [decCharsAux] at hc
    by_cases hn : n < 10
    · rw [if_pos hn] at hc
      simp only [List.mem_singleton] at hc
      subst hc
      exact digitChar_isDigit _ hn
    · rw [if_neg hn] at hc
      rcases List.mem_append.mp hc with h | h
      · exact ih _ c h
      · simp only [List.mem_singleton] at h
        subst h
        exact digitChar_isDigit _ (Nat.mod_lt _ (by omega))

theorem decChars_digits (n : Nat) : ∀ c ∈ decChars n, c.isDigit = true :=
  decCharsAux_digits n n

theorem decCharsAux_ne_nil (fuel n : Nat) : decCharsAux fuel n ≠ [] := by
  cases fuel with
  | zero => simp [decCharsAux]
  | succ fuel =>
    rw [decCharsAux]
    by_cases hn : n < 10
    · simp [hn]
    · simp [hn]

theorem decChars_ne_nil (n : Nat) : decChars n ≠ [] := decCharsAux_ne_nil n n

theorem decCharsAux_val (fuel : Nat) : ∀ n : Nat, n ≤ fuel →
    (decCharsAux fuel n).foldl (fun a c => 10 * a + (c.toNat - 48)) 0 = n := by
  induction fuel with
  | zero =>
    intro n hn
    interval_cases n
    simp [decCharsAux]
  | succ fuel ih =>
    intro n hn
    rw [decCharsAux]
    by_cases h10 : n < 10
    · rw [if_pos h10]
      simp [digitChar_toNat n h10]
    · rw [if_neg h10]
      rw [List.foldl_append]
      have hdiv : n / 10 ≤ fuel := by
        have := Nat.div_lt_self (show 0 < n by omega) (show 1 < 10 by omega)
        omega
      rw [ih (n / 10) hdiv]
      simp only [List.foldl_cons, List.foldl_nil]
      rw [digitChar_toNat (n % 10) (Nat.mod_lt _ (by omega))]
      omega

theorem decChars_inj (m n : Nat) (h : decChars m = decChars n) : m = n := by
  have hm := decCharsAux_val m m (Nat.le_refl m)
  have hn := decCharsAux_val n n (Nat.le_refl n)
  rw [decChars, decChars] at h
  rw [← hm, ← hn, h]

theorem decChars_no_dash (n : Nat) : '-' ∉ decChars n := by
  intro hmem
  have := decChars_digits n '-' hmem
  simp [Char.isDigit] at this

/-- Splitting a list around a separator absent from both prefixes is
unambiguous. -/
theorem sep_split (c : Char) : ∀ (a b x y : List Char), c ∉ a → c ∉ b →
    a ++ c :: x = b ++ c :: y → a = b ∧ x = y := by
  intro a
  induction a with
  | nil =>
    intro b x y hca hcb heq
    cases b with
    | nil =>
      simp only [List.nil_append] at heq
      exact ⟨rfl, List.cons.inj heq |>.2⟩
    | cons b0 bs =>
      simp only [List.nil_append, List.cons_append] at heq
      obtain ⟨rfl, -⟩ := List.cons.inj heq
      exact absurd (by simp : c ∈ c :: bs) hcb
  | cons a0 as ih =>
    intro b x y hca hcb heq
    cases b with
    | nil =>
      simp only [List.cons_append, List.nil_append] at heq
      obtain ⟨hac, -⟩ := List.cons.inj heq
      rw [← hac] at hca
      exact absurd (by simp : a0 ∈ a0 :: as) hca
    | cons b0 bs =>
      simp only [List.cons_append] at heq
      obtain ⟨rfl, htail⟩ := List.cons.inj heq
      have hca' : c ∉ as := fun h => hca (List.mem_cons_of_mem _ h)
      have hcb' : c ∉ bs := fun h => hcb (List.mem_cons_of_mem _ h)
      obtain ⟨h1, h2⟩ := ih bs x y hca' hcb' htail
      exact ⟨by rw [h1], h2⟩

theorem collapseAux_keyChars (l : List Char) : ∀ (b : Bool), ∀ c ∈ collapseAux b l,
    isKeyChar c = true := by
  induction l with
  | nil => intro b c hc; simp [collapseAux] at hc
  | cons c0 rest ih =>
    intro b c hc
    rw [collapseAux] at hc
    by_cases h0 : isKeyChar c0
    · rw [if_pos h0] at hc
      rcases List.mem_cons.mp hc with rfl | hc'
      · exact h0
      · exact ih false c hc'
    · rw [if_neg h0] at hc
      cases b with
      | true =>
        simp only [if_true] at hc
        exact ih true c hc
      | false =>
        simp only [Bool.false_eq_true, if_false] at hc
        rcases List.mem_cons.mp hc with rfl | hc'
        · decide
        · exact ih true c hc'

theorem mem_dropWhile (p : Char → Bool) (l : List Char) : ∀ c ∈ l.dropWhile p, c ∈ l := by
  induction l with
  | nil => simp
  | cons a rest ih =>
    intro c hc
    rw [List.dropWhile_cons] at hc
    by_cases hp : p a
    · simp only [hp, if_true] at hc
      exact List.mem_cons_of_mem _ (ih c hc)
    · simp only [hp, Bool.false_eq_true, if_false] at hc
      exact hc

theorem mem_trimDashes (l : List Char) : ∀ c ∈ trimDashes l, c ∈ l := by
  intro c hc
  rw [trimDashes, List.mem_reverse] at hc
  have h1 := mem_dropWhile _ _ c hc
  rw [List.mem_reverse] at h1
  exact mem_dropWhile _ _ c h1

theorem normalizeName_keyChars (s : String) : ∀ c ∈ normalizeName s, isKeyChar c = true := by
  intro c hc
  rw [normalizeName] at hc
  have h1 := (List.take_sublist _ _).mem hc
  exact collapseAux_keyChars _ false c (mem_trimDashes _ c h1)

theorem normalizeName_length (s : String) : (normalizeName s).length ≤ 120 := by
  rw [normalizeName]
  have := List.length_take 120 (trimDashes (collapseRuns (s.data.map lowerChar)))
  omega

/-- C8: every storage key matches
`datasets/` `\d+` `/` `\d+` `-` `[a-z0-9.-]*`, the normalized filename
component is at most 120 characters, and for fixed dataset id and filename
two distinct millisecond timestamps give distinct keys. -/
theorem c8_storage_key (datasetId : Nat) (hpos : 0 < datasetId) (originalName : String)
    (t1 t2 : Nat) (hne : t1 ≠ t2) :
    (∃ d t r : List Char,
      (buildStorageKey datasetId originalName t1).data =
        "datasets/".data ++ (d ++ '/' :: (t ++ '-' :: r)) ∧
      d ≠ [] ∧ (∀ c ∈ d, c.isDigit = true) ∧
      t ≠ [] ∧ (∀ c ∈ t, c.isDigit = true) ∧
      (∀ c ∈ r, isKeyChar c = true) ∧ r.length ≤ 120) ∧
    (normalizeName originalName).length ≤ 120 ∧
    buildStorageKey datasetId originalName t1 ≠ buildStorageKey datasetId originalName t2 := by
  refine ⟨?_, normalizeName_length originalName, ?_⟩
  · refine ⟨decChars datasetId, decChars t1,
      (if (normalizeName originalName).isEmpty then "asset".data
        else normalizeName originalName), ?_, decChars_ne_nil _, decChars_digits _, 
      decChars_ne_nil _, decChars_digits _, ?_, ?_⟩
    · rw [buildStorageKey]
      simp [List.append_assoc]
    · by_cases hnn : (normalizeName originalName).isEmpty
      · rw [if_pos hnn]
        decide
      · rw [if_neg hnn]
        exact normalizeName_keyChars originalName
    · by_cases hnn : (normalizeName originalName).isEmpty
      · rw [if_pos hnn]
        decide
      · rw [if_neg hnn]
        exact normalizeName_length originalName
  · intro heq
    apply hne
    set nn := (if (normalizeName originalName).isEmpty then "asset".data
      else normalizeName originalName) with hnn
    have hdata :
        "datasets/".data ++ (decChars datasetId ++ ('/' :: (decChars t1 ++ '-' :: nn))) =
        "datasets/".data ++ (decChars datasetId ++ ('/' :: (decChars t2 ++ '-' :: nn))) := by
      have h0 := congrArg String.data heq
      rw [buildStorageKey, buildStorageKey] at h0
      simpa [List.append_assoc, hnn] using h0
    have h1 := List.append_cancel_left hdata
    have h2 := List.append_cancel_left h1
    have h3 := (List.cons.inj h2).2
    obtain ⟨h4, -⟩ := sep_split '-' (decChars t1) (decChars t2) nn nn
      (decChars_no_dash t1) (decChars_no_dash t2) h3
    exact decChars_inj _ _ h4

/-- C8 witness: a concrete dataset, filename and two adjacent millisecond
timestamps. -/
theorem c8_storage_key_witness :
    (∃ d t r : List Char,
      (buildStorageKey 5 "My Photo (1).JPG" 1000).data =
        "datasets/".data ++ (d ++ '/' :: (t ++ '-' :: r)) ∧
      d ≠ [] ∧ (∀ c ∈ d, c.isDigit = true) ∧
      t ≠ [] ∧ (∀ c ∈ t, c.isDigit = true) ∧
      (∀ c ∈ r, isKeyChar c = true) ∧ r.length ≤ 120) ∧
    (normalizeName "My Photo (1).JPG").length ≤ 120 ∧
    buildStorageKey 5 "My Photo (1).JPG" 1000 ≠ buildStorageKey 5 "My Photo (1).JPG" 1001 :=
  c8_storage_key 5 (by decide) "My Photo (1).JPG" 1000 1001 (by decide)

end Cyop.Storage
